import Mathlib

/-!
Verification development for the eth-price-prediction repository.

The numeric code of the repository (TypeScript, IEEE doubles) is embedded
shallowly over the rationals: every arithmetic operation of the source is
transcribed exactly, with decimal literals written as rationals
(0.95 becomes 95/100 and so on).  JavaScript helpers are embedded as
kernel-computable functions: Math.abs, Math.min and Math.max become
conditional definitions with the same semantics, Array.prototype.slice with
a negative argument becomes a drop of the complementary length, and
Math.sqrt (used only inside the Bollinger-band width, whose value no claim
depends on) is abstracted as a function parameter.
-/

/-- Prediction direction: the TS union type UP | DOWN | NEUTRAL. -/
inductive Direction where
  | UP
  | DOWN
  | NEUTRAL
deriving DecidableEq, Repr

/-- Prediction horizon: the TS union type of the strings 15s | 30s | 60s. -/
inductive Timeframe where
  | t15s
  | t30s
  | t60s
deriving DecidableEq, Repr

/-- Outcome status: PENDING | CORRECT | INCORRECT | NEUTRAL. -/
inductive OutcomeStatus where
  | PENDING
  | CORRECT
  | INCORRECT
  | NEUTRAL
deriving DecidableEq, Repr

/-- OrderBookFeatureData from types.ts. -/
structure OrderBookFeatureData where
  mid_price : ℚ
  spread : ℚ
  bid_vol : ℚ
  ask_vol : ℚ
  imbalance : ℚ
  weighted_mid : ℚ
deriving DecidableEq, Repr

/-- The per-horizon accuracy record stored in AccuracyStats /
OrderBookAccuracyStats: the correct count, total count and their ratio. -/
structure AccuracyEntry where
  correct : ℕ
  total : ℕ
  accuracy : ℚ
deriving DecidableEq, Repr

/-- OrderBookPrediction from types.ts. -/
structure OrderBookPrediction where
  timeframe : Timeframe
  direction : Direction
  confidence : ℚ
  timestamp : ℤ
deriving DecidableEq, Repr

/-- PriceData from types.ts: one price tick. -/
structure PriceData where
  timestamp : ℤ
  price : ℚ
  high : ℚ
  low : ℚ
deriving DecidableEq, Repr

/-- The fields of an oracle (AI) PredictionResult that the resolution pass
reads: timeframe, direction, priceAtPrediction and timestamp. -/
structure AiPredictionMeta where
  timeframe : Timeframe
  direction : Direction
  priceAtPrediction : ℚ
  timestamp : ℤ
deriving DecidableEq, Repr

/-- PredictionOutcome for oracle predictions: a prediction plus a status. -/
structure PredictionOutcome where
  prediction : AiPredictionMeta
  status : OutcomeStatus
deriving DecidableEq, Repr

/-- OrderBookPredictionOutcome: a heuristic prediction plus a status. -/
structure OrderBookPredictionOutcome where
  prediction : OrderBookPrediction
  status : OutcomeStatus
deriving DecidableEq, Repr

/-- JavaScript Math.abs on our rational embedding. -/
def ratAbs (x : ℚ) : ℚ := if x < 0 then -x else x

/-- JavaScript Math.min on two rationals. -/
def ratMin (a b : ℚ) : ℚ := if a ≤ b then a else b

/-- JavaScript Math.max on two rationals. -/
def ratMax (a b : ℚ) : ℚ := if a ≤ b then b else a

/-- MAX_HISTORY_LENGTH = 120 in App.tsx. -/
def MAX_HISTORY_LENGTH : ℕ := 120

/-- MAX_OUTCOME_HISTORY = 60 in App.tsx. -/
def MAX_OUTCOME_HISTORY : ℕ := 60

/-- timeframeMap = \x7b 15s: 15000, 30s: 30000, 60s: 60000 \x7d in App.tsx. -/
def timeframeMs : Timeframe → ℤ
  | .t15s => 15000
  | .t30s => 30000
  | .t60s => 60000

/-- generateSmartOrderBookPrediction from App.tsx, transcribed statement by
statement.  Date.now() is passed in as the parameter now. -/
def generateSmartOrderBookPrediction (timeframe : Timeframe)
    (currentFeatures : OrderBookFeatureData)
    (previousFeatures : Option OrderBookFeatureData)
    (priceChange : ℚ)
    (accuracy : Option AccuracyEntry)
    (now : ℤ) : OrderBookPrediction :=
  let baseDirection : Direction :=
    if currentFeatures.imbalance > 5/100 then .UP
    else if currentFeatures.imbalance < -(5/100) then .DOWN
    else .NEUTRAL
  let confidence0 : ℚ := ratAbs currentFeatures.imbalance * (3/2)
  let confidence1 : ℚ :=
    match previousFeatures with
    | none => confidence0
    | some prev =>
      let imbalanceDelta := currentFeatures.imbalance - prev.imbalance
      if (imbalanceDelta > 1/100 ∧ baseDirection = .UP) ∨
         (imbalanceDelta < -(1/100) ∧ baseDirection = .DOWN) then
        confidence0 + 15/100
      else if (imbalanceDelta < -(1/100) ∧ baseDirection = .UP) ∨
              (imbalanceDelta > 1/100 ∧ baseDirection = .DOWN) then
        confidence0 - 15/100
      else confidence0
  let confidence2 : ℚ :=
    if (priceChange > 1/10 ∧ baseDirection = .UP) ∨
       (priceChange < -(1/10) ∧ baseDirection = .DOWN) then
      confidence1 + 1/10
    else if (priceChange < -(1/10) ∧ baseDirection = .UP) ∨
            (priceChange > 1/10 ∧ baseDirection = .DOWN) then
      confidence1 - 2/10
    else confidence1
  let finalDirection : Direction :=
    if confidence2 < 3/10 then .NEUTRAL else baseDirection
  let finalConfidence : ℚ := ratMax 0 (ratMin (95/100) confidence2)
  let confidenceDecay : ℚ :=
    match timeframe with
    | .t15s => 0
    | .t30s => 5/100
    | .t60s => 1/10
  let accuracyAdjustment : ℚ :=
    match accuracy with
    | some a => if a.total > 5 then (a.accuracy - 1/2) * (1/10) else 0
    | none => 0
  { timeframe := timeframe
    direction := finalDirection
    confidence := ratMax 0 (ratMin (95/100) (finalConfidence - confidenceDecay + accuracyAdjustment))
    timestamp := now }

/-- Clamp to [0, 0.95] as the spec's pipeline describes (steps 6 and 9):
Math.max(0, Math.min(0.95, x)). -/
def specConfidenceClamp (x : ℚ) : ℚ := ratMax 0 (ratMin (95/100) x)

/-- Spec pipeline step 1: base direction from imbalance — UP if
imbalance > 0.05, DOWN if imbalance < −0.05, else NEUTRAL. -/
def specBaseDirection (imbalance : ℚ) : Direction :=
  if imbalance > 5/100 then .UP
  else if imbalance < -(5/100) then .DOWN
  else .NEUTRAL

/-- Spec pipeline steps 2–4: base confidence |imbalance|·1.5, then the
imbalance-momentum adjustment (±0.15 when the one-step imbalance delta
agrees/disagrees with the base direction beyond magnitude 0.01; skipped when
there is no previous snapshot), then the price-momentum adjustment (+0.1
when the price delta agrees with the direction beyond the 0.1 threshold,
−0.2 when it disagrees beyond it). -/
def specAdjustedConfidence (imbalance : ℚ) (prevImbalance : Option ℚ)
    (priceDelta : ℚ) : ℚ :=
  let dir := specBaseDirection imbalance
  let base := ratAbs imbalance * (3/2)
  let withImbMomentum :=
    match prevImbalance with
    | none => base
    | some p =>
      let d := imbalance - p
      if (d > 1/100 ∧ dir = .UP) ∨ (d < -(1/100) ∧ dir = .DOWN) then
        base + 15/100
      else if (d < -(1/100) ∧ dir = .UP) ∨ (d > 1/100 ∧ dir = .DOWN) then
        base - 15/100
      else base
  if (priceDelta > 1/10 ∧ dir = .UP) ∨ (priceDelta < -(1/10) ∧ dir = .DOWN) then
    withImbMomentum + 1/10
  else if (priceDelta < -(1/10) ∧ dir = .UP) ∨ (priceDelta > 1/10 ∧ dir = .DOWN) then
    withImbMomentum - 2/10
  else withImbMomentum

/-- Spec pipeline step 7: horizon decay 0 / 0.05 / 0.1 for 15s / 30s / 60s. -/
def specDecay : Timeframe → ℚ
  | .t15s => 0
  | .t30s => 5/100
  | .t60s => 1/10

/-- Spec pipeline step 8: accuracy adjustment (accuracy − 0.5)·0.1 when the
horizon's accuracy sample has more than 5 completed predictions, else 0. -/
def specAccuracyAdjustment : Option AccuracyEntry → ℚ
  | some a => if a.total > 5 then (a.accuracy - 1/2) * (1/10) else 0
  | none => 0

/-- Spec pipeline steps 6 and 9 combined: clamp the adjusted confidence to
[0, 0.95], subtract the horizon decay, add the accuracy adjustment, and
clamp the result to [0, 0.95] again. -/
def specFinalConfidence (tf : Timeframe) (imbalance : ℚ)
    (prevImbalance : Option ℚ) (priceDelta : ℚ)
    (acc : Option AccuracyEntry) : ℚ :=
  specConfidenceClamp
    (specConfidenceClamp (specAdjustedConfidence imbalance prevImbalance priceDelta)
      - specDecay tf + specAccuracyAdjustment acc)

lemma gen_confidence_eq (tf : Timeframe) (cur : OrderBookFeatureData)
    (prev : Option OrderBookFeatureData) (pc : ℚ) (acc : Option AccuracyEntry)
    (now : ℤ) :
    (generateSmartOrderBookPrediction tf cur prev pc acc now).confidence =
      specFinalConfidence tf cur.imbalance
        (prev.map OrderBookFeatureData.imbalance) pc acc := by
  cases prev <;> rfl

lemma gen_direction_eq (tf : Timeframe) (cur : OrderBookFeatureData)
    (prev : Option OrderBookFeatureData) (pc : ℚ) (acc : Option AccuracyEntry)
    (now : ℤ) :
    (generateSmartOrderBookPrediction tf cur prev pc acc now).direction =
      if specAdjustedConfidence cur.imbalance
           (prev.map OrderBookFeatureData.imbalance) pc < 3/10 then
        Direction.NEUTRAL
      else specBaseDirection cur.imbalance := by
  cases prev <;> rfl

/-- Features with imbalance 0.30, as in the spec's worked example. -/
def exFeat03 : OrderBookFeatureData := ⟨0, 0, 0, 0, 3/10, 0⟩

/-- Previous features with imbalance 0.20: delta +0.10 agrees with UP. -/
def exPrev02 : OrderBookFeatureData := ⟨0, 0, 0, 0, 2/10, 0⟩

/-- Claim C1: the heuristic generator's returned confidence follows the
spec's pipeline for every horizon, features, optional previous features,
price delta and optional accuracy stats — base confidence |imbalance|·1.5,
±0.15 imbalance-momentum, +0.1/−0.2 price momentum, clamp to [0, 0.95],
minus horizon decay (0/0.05/0.1) plus accuracy adjustment
(accuracy − 0.5)·0.1 when total > 5, clamped again to [0, 0.95]; in
particular imbalance 0.30 with agreeing imbalance- and price-momentum and
no accuracy data yields confidence 0.70 / 0.65 / 0.60 for 15s / 30s / 60s. -/
theorem heuristic_confidence_pipeline :
    (∀ (tf : Timeframe) (cur : OrderBookFeatureData)
        (prev : Option OrderBookFeatureData) (pc : ℚ)
        (acc : Option AccuracyEntry) (now : ℤ),
      (generateSmartOrderBookPrediction tf cur prev pc acc now).confidence =
        specFinalConfidence tf cur.imbalance
          (prev.map OrderBookFeatureData.imbalance) pc acc) ∧
    (generateSmartOrderBookPrediction .t15s exFeat03 (some exPrev02) (2/10)
        none 0).confidence = 7/10 ∧
    (generateSmartOrderBookPrediction .t30s exFeat03 (some exPrev02) (2/10)
        none 0).confidence = 13/20 ∧
    (generateSmartOrderBookPrediction .t60s exFeat03 (some exPrev02) (2/10)
        none 0).confidence = 3/5 := by
  refine ⟨gen_confidence_eq, ?_, ?_, ?_⟩ <;>
    norm_num [generateSmartOrderBookPrediction, ratAbs, ratMin, ratMax,
      exFeat03, exPrev02]

/-- Features with imbalance 0.10, as in the spec's NEUTRAL-forcing example. -/
def exFeat01 : OrderBookFeatureData := ⟨0, 0, 0, 0, 1/10, 0⟩

/-- Claim C2, counterexample: with imbalance 0.10, no previous snapshot,
priceChange 0 and no accuracy stats, the 30s horizon does NOT return
confidence 0.15 — the returned confidence is the post-decay 0.10. -/
theorem heuristic_neutral_confidence_cex :
    ¬ ((generateSmartOrderBookPrediction .t30s exFeat01 none 0 none 0).confidence
        = 15/100) := by
  norm_num [generateSmartOrderBookPrediction, ratAbs, ratMin, ratMax, exFeat01]

/-- Claim C2 (amended): whenever the confidence after the imbalance-momentum
and price-momentum adjustments (before clamping and before horizon decay) is
below 0.3, the returned direction is NEUTRAL regardless of the imbalance's
sign; with imbalance 0.10, no previous snapshot, priceChange 0 and no
accuracy stats, every horizon returns direction NEUTRAL, with pre-decay
confidence 0.15 and returned confidence 0.15 for 15s, 0.10 for 30s and
0.05 for 60s. -/
theorem heuristic_low_conviction_neutral :
    (∀ (tf : Timeframe) (cur : OrderBookFeatureData)
        (prev : Option OrderBookFeatureData) (pc : ℚ)
        (acc : Option AccuracyEntry) (now : ℤ),
      specAdjustedConfidence cur.imbalance
          (prev.map OrderBookFeatureData.imbalance) pc < 3/10 →
      (generateSmartOrderBookPrediction tf cur prev pc acc now).direction =
        .NEUTRAL) ∧
    (∀ tf : Timeframe,
      (generateSmartOrderBookPrediction tf exFeat01 none 0 none 0).direction =
        .NEUTRAL) ∧
    specAdjustedConfidence exFeat01.imbalance none 0 = 15/100 ∧
    (generateSmartOrderBookPrediction .t15s exFeat01 none 0 none 0).confidence
      = 15/100 ∧
    (generateSmartOrderBookPrediction .t30s exFeat01 none 0 none 0).confidence
      = 1/10 ∧
    (generateSmartOrderBookPrediction .t60s exFeat01 none 0 none 0).confidence
      = 1/20 := by
  refine ⟨fun tf cur prev pc acc now h => ?_, fun tf => ?_, ?_, ?_, ?_, ?_⟩
  · rw [gen_direction_eq, if_pos h]
  · cases tf <;>
      norm_num [generateSmartOrderBookPrediction, ratAbs, ratMin, ratMax,
        exFeat01]
  all_goals
    norm_num [generateSmartOrderBookPrediction, specAdjustedConfidence,
      specBaseDirection, ratAbs, ratMin, ratMax, exFeat01]

/-- Witness for C2's amended theorem: the NEUTRAL-forcing implication applied
at the concrete 15s example, its hypothesis discharged by evaluation. -/
theorem heuristic_low_conviction_neutral_witness :
    (generateSmartOrderBookPrediction .t15s exFeat01 none 0 none 0).direction =
      .NEUTRAL :=
  heuristic_low_conviction_neutral.1 .t15s exFeat01 none 0 none 0
    (by norm_num [specAdjustedConfidence, specBaseDirection, ratAbs, exFeat01])

/-- Creation of an oracle outcome in fetchPrediction:
status starts as PENDING. -/
def mkPendingAiOutcome (p : AiPredictionMeta) : PredictionOutcome :=
  ⟨p, .PENDING⟩

/-- Creation of a heuristic outcome in the per-horizon prediction loop:
status starts as PENDING. -/
def mkPendingOrderBookOutcome (p : OrderBookPrediction) : OrderBookPredictionOutcome :=
  ⟨p, .PENDING⟩

/-- The body of the map inside resolveAiOutcomes in App.tsx: resolve one
oracle outcome against the latest price.  Date.now() is the parameter now. -/
def resolveAiOutcome (now : ℤ) (latestPrice : ℚ)
    (outcome : PredictionOutcome) : PredictionOutcome :=
  if outcome.status = .PENDING then
    if now - outcome.prediction.timestamp ≥ timeframeMs outcome.prediction.timeframe then
      let actualDirection : Direction :=
        if latestPrice > outcome.prediction.priceAtPrediction then .UP else .DOWN
      { outcome with
        status := if actualDirection = outcome.prediction.direction then .CORRECT
                  else .INCORRECT }
    else outcome
  else outcome

/-- resolveAiOutcomes from App.tsx: one resolution pass over the oracle
outcome list. -/
def resolveAiOutcomes (now : ℤ) (latestPrice : ℚ)
    (outcomes : List PredictionOutcome) : List PredictionOutcome :=
  outcomes.map (resolveAiOutcome now latestPrice)

/-- The body of the map inside resolveOrderBookOutcomes in App.tsx: resolve
one heuristic outcome.  The baseline price is the first sample of the
(chronological) price history whose timestamp is at or after the
prediction's timestamp; the pass keeps the outcome PENDING when there is
no such sample. -/
def resolveOrderBookOutcome (now : ℤ) (latestPrice : ℚ)
    (history : List PriceData)
    (outcome : OrderBookPredictionOutcome) : OrderBookPredictionOutcome :=
  if outcome.status = .PENDING then
    if now - outcome.prediction.timestamp ≥ timeframeMs outcome.prediction.timeframe then
      match history.find? (fun p => decide (outcome.prediction.timestamp ≤ p.timestamp)) with
      | none => outcome
      | some basePoint =>
        if outcome.prediction.direction = .NEUTRAL then
          { outcome with status := .NEUTRAL }
        else
          let actualDirection : Direction :=
            if latestPrice > basePoint.price then .UP else .DOWN
          { outcome with
            status := if actualDirection = outcome.prediction.direction then .CORRECT
                      else .INCORRECT }
    else outcome
  else outcome

/-- resolveOrderBookOutcomes from App.tsx: one resolution pass over the
heuristic outcome list. -/
def resolveOrderBookOutcomes (now : ℤ) (latestPrice : ℚ)
    (history : List PriceData)
    (outcomes : List OrderBookPredictionOutcome) : List OrderBookPredictionOutcome :=
  outcomes.map (resolveOrderBookOutcome now latestPrice history)

/-- A sequence of oracle resolution passes applied to one outcome, each pass
with its own wall-clock time and latest price. -/
def runAiResolutionSteps (updates : List (ℤ × ℚ))
    (outcome : PredictionOutcome) : PredictionOutcome :=
  updates.foldl (fun acc u => resolveAiOutcome u.1 u.2 acc) outcome

/-- A sequence of heuristic resolution passes applied to one outcome, each
pass with its own wall-clock time, latest price and price history. -/
def runOrderBookResolutionSteps (updates : List (ℤ × ℚ × List PriceData))
    (outcome : OrderBookPredictionOutcome) : OrderBookPredictionOutcome :=
  updates.foldl (fun acc u => resolveOrderBookOutcome u.1 u.2.1 u.2.2 acc) outcome

lemma resolveAiOutcome_terminal (now : ℤ) (latestPrice : ℚ)
    (o : PredictionOutcome) (h : o.status ≠ .PENDING) :
    resolveAiOutcome now latestPrice o = o := by
  simp [resolveAiOutcome, h]

lemma resolveOrderBookOutcome_terminal (now : ℤ) (latestPrice : ℚ)
    (history : List PriceData) (o : OrderBookPredictionOutcome)
    (h : o.status ≠ .PENDING) :
    resolveOrderBookOutcome now latestPrice history o = o := by
  simp [resolveOrderBookOutcome, h]

lemma runAiResolutionSteps_terminal (updates : List (ℤ × ℚ))
    (o : PredictionOutcome) (h : o.status ≠ .PENDING) :
    runAiResolutionSteps updates o = o := by
  induction updates with
  | nil => rfl
  | cons u us ih =>
    show runAiResolutionSteps us (resolveAiOutcome u.1 u.2 o) = o
    rw [resolveAiOutcome_terminal u.1 u.2 o h]
    exact ih

lemma runOrderBookResolutionSteps_terminal (updates : List (ℤ × ℚ × List PriceData))
    (o : OrderBookPredictionOutcome) (h : o.status ≠ .PENDING) :
    runOrderBookResolutionSteps updates o = o := by
  induction updates with
  | nil => rfl
  | cons u us ih =>
    show runOrderBookResolutionSteps us (resolveOrderBookOutcome u.1 u.2.1 u.2.2 o) = o
    rw [resolveOrderBookOutcome_terminal u.1 u.2.1 u.2.2 o h]
    exact ih

lemma ite_status_ne_pending (c : Prop) [Decidable c] :
    (if c then OutcomeStatus.CORRECT else OutcomeStatus.INCORRECT) ≠ .PENDING := by
  split <;> simp

lemma resolveAiOutcome_step (now : ℤ) (latestPrice : ℚ) (o : PredictionOutcome) :
    resolveAiOutcome now latestPrice o = o ∨
      (o.status = .PENDING ∧
        (resolveAiOutcome now latestPrice o).prediction = o.prediction ∧
        (resolveAiOutcome now latestPrice o).status ≠ .PENDING) := by
  by_cases h1 : o.status = .PENDING
  · by_cases h2 : now - o.prediction.timestamp ≥ timeframeMs o.prediction.timeframe
    · refine Or.inr ⟨h1, ?_, ?_⟩ <;> simp [resolveAiOutcome, h1, h2]
      all_goals split <;> exact ite_status_ne_pending _
    · exact Or.inl (by simp [resolveAiOutcome, h1, h2])
  · exact Or.inl (resolveAiOutcome_terminal now latestPrice o h1)

lemma resolveOrderBookOutcome_step (now : ℤ) (latestPrice : ℚ)
    (history : List PriceData) (o : OrderBookPredictionOutcome) :
    resolveOrderBookOutcome now latestPrice history o = o ∨
      (o.status = .PENDING ∧
        (resolveOrderBookOutcome now latestPrice history o).prediction = o.prediction ∧
        (resolveOrderBookOutcome now latestPrice history o).status ≠ .PENDING) := by
  by_cases h1 : o.status = .PENDING
  · by_cases h2 : now - o.prediction.timestamp ≥ timeframeMs o.prediction.timeframe
    · rcases hf : history.find? (fun p => decide (o.prediction.timestamp ≤ p.timestamp)) with _ | basePoint
      · exact Or.inl (by simp [resolveOrderBookOutcome, h1, h2, hf])
      · by_cases h3 : o.prediction.direction = .NEUTRAL
        · refine Or.inr ⟨h1, ?_, ?_⟩ <;>
            simp [resolveOrderBookOutcome, h1, h2, hf, h3]
        · refine Or.inr ⟨h1, ?_, ?_⟩ <;>
            simp [resolveOrderBookOutcome, h1, h2, hf, h3]
          all_goals try exact ite_status_ne_pending _
    · exact Or.inl (by simp [resolveOrderBookOutcome, h1, h2])
  · exact Or.inl (resolveOrderBookOutcome_terminal now latestPrice history o h1)

lemma resolveAiOutcomes_all_terminal (now : ℤ) (latestPrice : ℚ)
    (l : List PredictionOutcome) (h : ∀ o ∈ l, o.status ≠ .PENDING) :
    resolveAiOutcomes now latestPrice l = l := by
  induction l with
  | nil => rfl
  | cons a t ih =>
    show resolveAiOutcome now latestPrice a :: resolveAiOutcomes now latestPrice t = a :: t
    rw [resolveAiOutcome_terminal now latestPrice a (h a (by simp)),
      ih (fun o ho => h o (by simp [ho]))]

lemma resolveOrderBookOutcomes_all_terminal (now : ℤ) (latestPrice : ℚ)
    (history : List PriceData) (l : List OrderBookPredictionOutcome)
    (h : ∀ o ∈ l, o.status ≠ .PENDING) :
    resolveOrderBookOutcomes now latestPrice history l = l := by
  induction l with
  | nil => rfl
  | cons a t ih =>
    show resolveOrderBookOutcome now latestPrice history a ::
        resolveOrderBookOutcomes now latestPrice history t = a :: t
    rw [resolveOrderBookOutcome_terminal now latestPrice history a (h a (by simp)),
      ih (fun o ho => h o (by simp [ho]))]

/-- Claim C3: every outcome is created PENDING; one resolution step either
leaves an outcome unchanged or moves a PENDING outcome to a non-PENDING
status without touching its prediction (so the status changes at most
once); an outcome whose status is terminal (not PENDING) is left unchanged
by every subsequent sequence of resolution passes, for both the oracle and
the heuristic resolver; and a whole resolution pass leaves a list of
already-resolved outcomes unchanged. -/
theorem outcome_resolution_terminal_stable :
    (∀ p, (mkPendingAiOutcome p).status = .PENDING) ∧
    (∀ p, (mkPendingOrderBookOutcome p).status = .PENDING) ∧
    (∀ (now : ℤ) (latestPrice : ℚ) (o : PredictionOutcome),
      resolveAiOutcome now latestPrice o = o ∨
        (o.status = .PENDING ∧
          (resolveAiOutcome now latestPrice o).prediction = o.prediction ∧
          (resolveAiOutcome now latestPrice o).status ≠ .PENDING)) ∧
    (∀ (now : ℤ) (latestPrice : ℚ) (history : List PriceData)
        (o : OrderBookPredictionOutcome),
      resolveOrderBookOutcome now latestPrice history o = o ∨
        (o.status = .PENDING ∧
          (resolveOrderBookOutcome now latestPrice history o).prediction = o.prediction ∧
          (resolveOrderBookOutcome now latestPrice history o).status ≠ .PENDING)) ∧
    (∀ (o : PredictionOutcome), o.status ≠ .PENDING →
      ∀ updates, runAiResolutionSteps updates o = o) ∧
    (∀ (o : OrderBookPredictionOutcome), o.status ≠ .PENDING →
      ∀ updates, runOrderBookResolutionSteps updates o = o) ∧
    (∀ (now : ℤ) (latestPrice : ℚ) (l : List PredictionOutcome),
      (∀ o ∈ l, o.status ≠ .PENDING) → resolveAiOutcomes now latestPrice l = l) ∧
    (∀ (now : ℤ) (latestPrice : ℚ) (history : List PriceData)
        (l : List OrderBookPredictionOutcome),
      (∀ o ∈ l, o.status ≠ .PENDING) →
        resolveOrderBookOutcomes now latestPrice history l = l) :=
  ⟨fun _ => rfl, fun _ => rfl, resolveAiOutcome_step, resolveOrderBookOutcome_step,
    fun o h updates => runAiResolutionSteps_terminal updates o h,
    fun o h updates => runOrderBookResolutionSteps_terminal updates o h,
    resolveAiOutcomes_all_terminal,
    resolveOrderBookOutcomes_all_terminal⟩

/-- The spec's exactly-once scenario, resolved: a 15s UP prediction made at
t = 0, resolved at t = 15000 against the single-sample history with
baseline price 5 and latest price 6. -/
def exResolvedOutcome : OrderBookPredictionOutcome :=
  resolveOrderBookOutcome 15000 6 [⟨0, 5, 5, 5⟩]
    (mkPendingOrderBookOutcome ⟨.t15s, .UP, 1/2, 0⟩)

/-- Witness for C3: the already-resolved outcome of the spec's scenario
(status CORRECT) is left unchanged by a further resolution pass. -/
theorem outcome_resolution_terminal_stable_witness :
    exResolvedOutcome.status = .CORRECT ∧
    runOrderBookResolutionSteps [(30000, 7, [⟨0, 5, 5, 5⟩])] exResolvedOutcome =
      exResolvedOutcome := by
  have hstat : exResolvedOutcome.status = .CORRECT := by
    norm_num [exResolvedOutcome, resolveOrderBookOutcome, mkPendingOrderBookOutcome,
      timeframeMs, List.find?]
    decide
  exact ⟨hstat,
    outcome_resolution_terminal_stable.2.2.2.2.2.1 exResolvedOutcome
      (by rw [hstat]; decide) [(30000, 7, [⟨0, 5, 5, 5⟩])]⟩

lemma find?_ts_earliest (T : ℤ) (history : List PriceData)
    (hs : List.Pairwise (fun a b : PriceData => a.timestamp ≤ b.timestamp) history)
    (a : PriceData)
    (ha : history.find? (fun p => decide (T ≤ p.timestamp)) = some a) :
    ∀ q ∈ history, T ≤ q.timestamp → a.timestamp ≤ q.timestamp := by
  induction history with
  | nil => simp at ha
  | cons h t ih =>
    rcases List.pairwise_cons.mp hs with ⟨hhead, htail⟩
    by_cases hp : T ≤ h.timestamp
    · rw [List.find?_cons_of_pos _ (by simpa using hp)] at ha
      injection ha with ha
      subst ha
      intro q hq hTq
      rcases List.mem_cons.mp hq with rfl | hq'
      · exact le_refl _
      · exact hhead q hq'
    · rw [List.find?_cons_of_neg _ (by simpa using hp)] at ha
      intro q hq hTq
      rcases List.mem_cons.mp hq with rfl | hq'
      · exact absurd hTq hp
      · exact ih htail ha q hq' hTq

lemma find?_ts_exists (T : ℤ) (history : List PriceData)
    (hex : ∃ p ∈ history, T ≤ p.timestamp) :
    ∃ b, history.find? (fun p => decide (T ≤ p.timestamp)) = some b := by
  cases hf : history.find? (fun p => decide (T ≤ p.timestamp)) with
  | none =>
    rcases hex with ⟨p, hp, hT⟩
    have := List.find?_eq_none.mp hf p hp
    simp at this
    exact absurd hT (not_le.mpr this)
  | some b => exact ⟨b, rfl⟩

/-- Claim C4: for a PENDING heuristic outcome whose horizon has elapsed,
the resolution pass (a) leaves the outcome PENDING when no price-history
sample has a timestamp at or after the prediction timestamp, (b) resolves
a NEUTRAL-direction prediction to NEUTRAL status, and (c) otherwise scores
against the earliest qualifying sample of the chronologically ordered
history as baseline: realized direction UP when the latest price is
strictly greater than the baseline price and DOWN otherwise, status
CORRECT exactly when realized equals predicted. -/
theorem orderbook_resolution_rule :
    ∀ (now : ℤ) (latestPrice : ℚ) (history : List PriceData)
      (o : OrderBookPredictionOutcome),
      o.status = .PENDING →
      now - o.prediction.timestamp ≥ timeframeMs o.prediction.timeframe →
      List.Pairwise (fun a b : PriceData => a.timestamp ≤ b.timestamp) history →
      ((∀ p ∈ history, ¬ o.prediction.timestamp ≤ p.timestamp) →
          resolveOrderBookOutcome now latestPrice history o = o) ∧
      ((∃ p ∈ history, o.prediction.timestamp ≤ p.timestamp) →
          o.prediction.direction = .NEUTRAL →
          resolveOrderBookOutcome now latestPrice history o =
            { o with status := .NEUTRAL }) ∧
      ((∃ p ∈ history, o.prediction.timestamp ≤ p.timestamp) →
          o.prediction.direction ≠ .NEUTRAL →
          ∃ basePoint ∈ history,
            o.prediction.timestamp ≤ basePoint.timestamp ∧
            (∀ q ∈ history, o.prediction.timestamp ≤ q.timestamp →
              basePoint.timestamp ≤ q.timestamp) ∧
            resolveOrderBookOutcome now latestPrice history o =
              { o with status :=
                  if (if latestPrice > basePoint.price then Direction.UP
                      else Direction.DOWN) = o.prediction.direction then
                    .CORRECT
                  else .INCORRECT }) := by
  intro now latestPrice history o h1 h2 hs
  refine ⟨?_, ?_, ?_⟩
  · intro hnone
    have hfind : history.find? (fun p => decide (o.prediction.timestamp ≤ p.timestamp)) = none :=
      List.find?_eq_none.mpr (fun x hx => by simpa using hnone x hx)
    simp [resolveOrderBookOutcome, h1, h2, hfind]
  · intro hex hneu
    rcases find?_ts_exists _ _ hex with ⟨b, hb⟩
    simp [resolveOrderBookOutcome, h1, h2, hb, hneu]
  · intro hex hdir
    rcases find?_ts_exists _ _ hex with ⟨b, hb⟩
    refine ⟨b, List.mem_of_find?_eq_some hb, by simpa using List.find?_some hb,
      find?_ts_earliest _ _ hs b hb, ?_⟩
    simp [resolveOrderBookOutcome, h1, h2, hb, hdir]

/-- The single-sample price history of the spec's resolution scenario. -/
def exHist : List PriceData := [⟨0, 5, 5, 5⟩]

/-- A PENDING 15s UP prediction made at t = 0. -/
def exPendingUp : OrderBookPredictionOutcome :=
  mkPendingOrderBookOutcome ⟨.t15s, .UP, 1/2, 0⟩

/-- Witness for C4: resolving the PENDING 15s UP prediction of the spec's
scenario at t = 15000 with latest price 6 against baseline price 5 yields
status CORRECT, by the directional case of the resolution rule. -/
theorem orderbook_resolution_rule_witness :
    resolveOrderBookOutcome 15000 6 exHist exPendingUp =
      { exPendingUp with status := .CORRECT } := by
  obtain ⟨b, hbmem, -, -, heq⟩ :=
    (orderbook_resolution_rule 15000 6 exHist exPendingUp rfl (by decide)
        (by simp [exHist])).2.2
      ⟨⟨0, 5, 5, 5⟩, by simp [exHist], by decide⟩ (by decide)
  have hb : b = ⟨0, 5, 5, 5⟩ := by simpa [exHist] using hbmem
  subst hb
  rw [heq]
  norm_num
  decide

/-- The per-horizon body of the orderBookAccuracyStats useMemo in App.tsx:
filter the outcome history to this horizon's completed, non-NEUTRAL
predictions; report counts and ratio when the filtered set is non-empty,
and nothing (null) otherwise. -/
def orderBookAccuracyStats (outcomes : List OrderBookPredictionOutcome)
    (tf : Timeframe) : Option AccuracyEntry :=
  let relevant := outcomes.filter (fun o =>
    decide (o.prediction.timeframe = tf ∧ o.prediction.direction ≠ .NEUTRAL ∧
      o.status ≠ .PENDING))
  if relevant.length > 0 then
    let correct := (relevant.filter (fun o => decide (o.status = .CORRECT))).length
    some ⟨correct, relevant.length, (correct : ℚ) / relevant.length⟩
  else none

/-- Claim C5: the per-horizon accuracy statistic is computed over exactly
the outcomes of that horizon whose status is not PENDING and whose
predicted direction is not NEUTRAL; it is absent exactly when that
filtered set is empty (so no 0/0 division and no fabricated 0% ever
occurs), and otherwise it reports the CORRECT count, the filtered total
(which is positive), and accuracy = correct/total with correct ≤ total. -/
theorem accuracy_stats_filtered :
    ∀ (outcomes : List OrderBookPredictionOutcome) (tf : Timeframe),
      (orderBookAccuracyStats outcomes tf = none ↔
        outcomes.filter (fun o =>
          decide (o.prediction.timeframe = tf ∧ o.prediction.direction ≠ .NEUTRAL ∧
            o.status ≠ .PENDING)) = []) ∧
      (∀ e, orderBookAccuracyStats outcomes tf = some e →
        e.correct = ((outcomes.filter (fun o =>
            decide (o.prediction.timeframe = tf ∧ o.prediction.direction ≠ .NEUTRAL ∧
              o.status ≠ .PENDING))).filter
              (fun o => decide (o.status = .CORRECT))).length ∧
        e.total = (outcomes.filter (fun o =>
            decide (o.prediction.timeframe = tf ∧ o.prediction.direction ≠ .NEUTRAL ∧
              o.status ≠ .PENDING))).length ∧
        0 < e.total ∧
        e.accuracy = (e.correct : ℚ) / e.total ∧
        e.correct ≤ e.total) := by
  intro outcomes tf
  set relevant := outcomes.filter (fun o =>
    decide (o.prediction.timeframe = tf ∧ o.prediction.direction ≠ .NEUTRAL ∧
      o.status ≠ .PENDING)) with hrel
  constructor
  · by_cases h : relevant.length > 0
    · simp only [orderBookAccuracyStats, ← hrel, h, if_pos]
      constructor
      · intro hc
        exact absurd hc (by simp)
      · intro hc
        rw [hc] at h
        simp at h
    · simp only [orderBookAccuracyStats, ← hrel, h, if_neg]
      simp only [not_lt, Nat.le_zero, List.length_eq_zero] at h
      simp [h]
  · intro e he
    by_cases h : relevant.length > 0
    · simp only [orderBookAccuracyStats, ← hrel, h, if_pos] at he
      injection he with he
      subst he
      refine ⟨rfl, rfl, h, rfl, List.length_filter_le _ _⟩
    · simp only [orderBookAccuracyStats, ← hrel, h, if_neg] at he
      exact absurd he (by simp)

/-- A small concrete outcome history: one completed CORRECT UP outcome on
the 15s horizon, one still-PENDING outcome, one NEUTRAL-direction outcome. -/
def exOutcomes : List OrderBookPredictionOutcome :=
  [⟨⟨.t15s, .UP, 1/2, 0⟩, .CORRECT⟩,
   ⟨⟨.t15s, .DOWN, 1/2, 0⟩, .PENDING⟩,
   ⟨⟨.t15s, .NEUTRAL, 1/10, 0⟩, .NEUTRAL⟩]

/-- Witness for C5: on the concrete history only the completed directional
outcome qualifies, so the 15s statistic is 1 correct out of 1 with
accuracy 1 — obtained by applying the filtering theorem at that history. -/
theorem accuracy_stats_filtered_witness :
    0 < (⟨1, 1, 1⟩ : AccuracyEntry).total :=
  ((accuracy_stats_filtered exOutcomes .t15s).2 ⟨1, 1, 1⟩
    (by norm_num [orderBookAccuracyStats, exOutcomes, List.filter]; decide)).2.2.1

/-- JavaScript arr.slice(-n): the last n elements (the whole list when it is
shorter than n). -/
def takeLast {α : Type} (l : List α) (n : ℕ) : List α := l.drop (l.length - n)

/-- JavaScript Math.max over a spread array, as used on the non-empty
kPeriod slices in calculateStochastic.  (Math.max of an empty spread is
-Infinity in JS; the slices the source builds are never empty when the
highs/lows series are as long as the closes series, and no claim depends
on the empty value, fixed here as 0.) -/
def listMax : List ℚ → ℚ
  | [] => 0
  | h :: t => t.foldl ratMax h

/-- JavaScript Math.min over a spread array (see listMax). -/
def listMin : List ℚ → ℚ
  | [] => 0
  | h :: t => t.foldl ratMin h

/-- calculateEMASeries from technicalIndicators.ts: null when fewer than
period samples; otherwise null entries before index period−1, the simple
average of the first period values as seed there, and the EMA recursion
ema = price·k + prev·(1−k) with k = 2/(period+1) afterwards.  (The
source's runtime null-check on the previous entry is vacuous from the
seed index on, so the smoothed tail is built directly with scanl.) -/
def calculateEMASeries (prices : List ℚ) (period : ℕ) : Option (List (Option ℚ)) :=
  if prices.length < period then none
  else
    let k : ℚ := 2 / ((period : ℚ) + 1)
    let seed := (prices.take period).sum / period
    let smoothed := (prices.drop period).scanl (fun prevEma p => p * k + prevEma * (1 - k)) seed
    some (List.replicate (period - 1) none ++ smoothed.map some)

/-- calculateSMA from technicalIndicators.ts: trailing mean of the last
period values. -/
def calculateSMA (data : List ℚ) (period : ℕ) : Option ℚ :=
  if data.length < period then none
  else some ((takeLast data period).sum / period)

/-- calculateStdDev from technicalIndicators.ts.  Math.sqrt is the only
non-rational operation of the indicator engine and is abstracted as the
parameter sqrtFn; every claim about this function is independent of it. -/
def calculateStdDev (sqrtFn : ℚ → ℚ) (data : List ℚ) (period : ℕ) : Option ℚ :=
  if data.length < period then none
  else
    let slice := takeLast data period
    match calculateSMA slice period with
    | none => none
    | some mean =>
      let sqDiff := slice.map (fun price => (price - mean) ^ 2)
      some (sqrtFn (sqDiff.sum / period))

/-- Bollinger band triple. -/
structure BBands where
  upper : ℚ
  middle : ℚ
  lower : ℚ
deriving DecidableEq, Repr

/-- calculateBBands from technicalIndicators.ts. -/
def calculateBBands (sqrtFn : ℚ → ℚ) (prices : List ℚ) (period : ℕ)
    (stdDevMultiplier : ℚ) : Option BBands :=
  if prices.length < period then none
  else
    match calculateSMA prices period, calculateStdDev sqrtFn prices period with
    | some middle, some stdDev =>
      some ⟨middle + stdDev * stdDevMultiplier, middle, middle - stdDev * stdDevMultiplier⟩
    | _, _ => none

/-- calculateStochastic from technicalIndicators.ts.  The source loop index
i runs from kPeriod−1 to closes.length−1; here j = i − (kPeriod−1), so the
slices highs.slice(i−kPeriod+1, i+1) become drop j followed by take
kPeriod. -/
def calculateStochastic (highs lows closes : List ℚ) (kPeriod dPeriod : ℕ) :
    Option (ℚ × ℚ) :=
  if closes.length < kPeriod then none
  else
    let kValues := (List.range (closes.length - kPeriod + 1)).map (fun j =>
      let sliceHighs := (highs.drop j).take kPeriod
      let sliceLows := (lows.drop j).take kPeriod
      let highestHigh := listMax sliceHighs
      let lowestLow := listMin sliceLows
      let currentClose := closes.getD (kPeriod - 1 + j) 0
      if highestHigh = lowestLow then (100 : ℚ)
      else 100 * ((currentClose - lowestLow) / (highestHigh - lowestLow)))
    if kValues.length < dPeriod then none
    else
      let lastK := kValues.getD (kValues.length - 1) 0
      let dSlice := takeLast kValues dPeriod
      some (lastK, dSlice.sum / dPeriod)

/-- The gain part of a price change, as accumulated by calculateRSI. -/
def gainOf (change : ℚ) : ℚ := if change > 0 then change else 0

/-- The loss part of a price change (losses are positive values). -/
def lossOf (change : ℚ) : ℚ := if change < 0 then -change else 0

/-- Wilder's smoothing loop of calculateRSI:
avg = (avg·(period−1) + contribution)/period over the remaining changes. -/
def wilderSmooth (period : ℕ) (f : ℚ → ℚ) (avg0 : ℚ) (changes : List ℚ) : ℚ :=
  changes.foldl (fun avg c => (avg * ((period : ℚ) - 1) + f c) / period) avg0

/-- The consecutive price changes prices[i] − prices[i−1]. -/
def priceChanges (prices : List ℚ) : List ℚ :=
  (prices.zip prices.tail).map (fun pq => pq.2 - pq.1)

/-- calculateRSI from technicalIndicators.ts: null when length ≤ period;
otherwise the averages are seeded over the first period changes and
smoothed with Wilder's recursion over the rest; RSI is 100 when the
average loss is 0 and 100 − 100/(1 + avgGain/avgLoss) otherwise. -/
def calculateRSI (prices : List ℚ) (period : ℕ) : Option ℚ :=
  if prices.length ≤ period then none
  else
    let changes := priceChanges prices
    let gains := ((changes.take period).map gainOf).sum
    let losses := ((changes.take period).map lossOf).sum
    let avgGain := wilderSmooth period gainOf (gains / period) (changes.drop period)
    let avgLoss := wilderSmooth period lossOf (losses / period) (changes.drop period)
    if avgLoss = 0 then some 100
    else some (100 - 100 / (1 + avgGain / avgLoss))

/-- MACD result triple. -/
structure MACDResult where
  macd : ℚ
  signal : ℚ
  histogram : ℚ
deriving DecidableEq, Repr

/-- calculateMACD from technicalIndicators.ts.  The source builds the MACD
line by indexing both EMA series at the same position i over the price
indices; both series have exactly the length of prices, so this is the
elementwise zip. -/
def calculateMACD (prices : List ℚ) (fastPeriod slowPeriod signalPeriod : ℕ) :
    Option MACDResult :=
  if prices.length < slowPeriod + signalPeriod then none
  else
    match calculateEMASeries prices fastPeriod, calculateEMASeries prices slowPeriod with
    | some emaFast, some emaSlow =>
      let macdLineSeries := (emaFast.zip emaSlow).map (fun ab =>
        match ab.1, ab.2 with
        | some x, some y => some (x - y)
        | _, _ => none)
      let validMacdValues := macdLineSeries.filterMap id
      if validMacdValues.length < signalPeriod then none
      else
        match calculateEMASeries validMacdValues signalPeriod with
        | some signalSeries =>
          let validSignalValues := signalSeries.filterMap id
          if validSignalValues.length = 0 then none
          else
            match validMacdValues.getLast?, validSignalValues.getLast? with
            | some lastMacd, some lastSignal =>
              some ⟨lastMacd, lastSignal, lastMacd - lastSignal⟩
            | _, _ => none
        | none => none
    | _, _ => none

lemma calculateStochastic_eq_none_iff (highs lows closes : List ℚ) :
    calculateStochastic highs lows closes 14 3 = none ↔ closes.length ≤ 15 := by
  by_cases h1 : closes.length < 14
  · simp only [calculateStochastic, h1, if_pos]
    exact iff_of_true trivial (by omega)
  · simp only [calculateStochastic, h1, if_neg, not_false_iff]
    by_cases h2 : ((List.range (closes.length - 14 + 1)).length < 3)
    · rw [List.length_range] at h2
      simp only [List.length_map, List.length_range]
      rw [if_pos (by omega)]
      simp
      omega
    · rw [List.length_range] at h2
      simp only [List.length_map, List.length_range]
      rw [if_neg (by omega)]
      simp
      omega

/-- Claim C10: with the default periods (kPeriod 14, dPeriod 3),
calculateStochastic returns null exactly when the closes series has at most
kPeriod + dPeriod − 2 = 15 samples (not merely when it is shorter than
kPeriod), and returns a (%K, %D) pair exactly when it has at least
kPeriod + dPeriod − 1 = 16 samples, whatever the highs and lows are. -/
theorem stochastic_none_iff :
    ∀ highs lows closes : List ℚ,
      (calculateStochastic highs lows closes 14 3 = none ↔ closes.length ≤ 15) ∧
      ((calculateStochastic highs lows closes 14 3).isSome ↔ 16 ≤ closes.length) := by
  intro highs lows closes
  refine ⟨calculateStochastic_eq_none_iff highs lows closes, ?_⟩
  rw [Option.isSome_iff_ne_none, Ne, calculateStochastic_eq_none_iff]
  omega

lemma calculateSMA_some (data : List ℚ) (period : ℕ) (h : period ≤ data.length) :
    calculateSMA data period = some ((takeLast data period).sum / period) := by
  rw [calculateSMA, if_neg (not_lt.mpr h)]

lemma takeLast_length {α : Type} (l : List α) (n : ℕ) :
    (takeLast l n).length = l.length - (l.length - n) := by
  simp [takeLast]

lemma calculateStdDev_some (sqrtFn : ℚ → ℚ) (data : List ℚ) (period : ℕ)
    (h : period ≤ data.length) :
    ∃ v, calculateStdDev sqrtFn data period = some v := by
  rw [calculateStdDev, if_neg (not_lt.mpr h)]
  simp only [calculateSMA_some (takeLast data period) period
    (by rw [takeLast_length]; omega)]
  exact ⟨_, rfl⟩

lemma calculateBBands_ne_none (sqrtFn : ℚ → ℚ) (prices : List ℚ) (period : ℕ)
    (mult : ℚ) (h : period ≤ prices.length) :
    calculateBBands sqrtFn prices period mult ≠ none := by
  rw [calculateBBands, if_neg (not_lt.mpr h), calculateSMA_some prices period h]
  obtain ⟨v, hv⟩ := calculateStdDev_some sqrtFn prices period h
  rw [hv]
  simp

/-- The canonical ascending series 1, 2, …, 20 of the claim. -/
def exPrices20 : List ℚ := (List.range 20).map (fun i => (i : ℚ) + 1)

lemma exPrices20_length : exPrices20.length = 20 := by
  decide

/-- Claim C6, counterexample: the series 1..20 has n = 20 < period + 1 = 21
samples for the Bollinger period 20, yet calculateBBands returns a value
(its guard only rejects series strictly shorter than the period). -/
theorem indicators_insufficient_null_cex :
    calculateBBands (fun x => x) exPrices20 20 2 ≠ none :=
  calculateBBands_ne_none (fun x => x) exPrices20 20 2
    (by rw [exPrices20_length])

/-- Claim C6 (amended): each indicator returns null, never an error, on
short input — RSI (period 14) for every series with fewer than 15 samples,
MACD (12/26/9) for fewer than 27 (its guard even rejects everything below
slow + signal = 35), the Stochastic (14/3) for fewer than 15, and
Bollinger (period 20) for fewer than 20 samples; at exactly 20 samples
Bollinger already returns a value, so its threshold is n < period, not
n < period + 1. -/
theorem indicators_insufficient_null :
    ∀ (prices : List ℚ) (sqrtFn : ℚ → ℚ) (highs lows : List ℚ),
      (prices.length ≤ 14 → calculateRSI prices 14 = none) ∧
      (prices.length < 27 → calculateMACD prices 12 26 9 = none) ∧
      (prices.length < 15 → calculateStochastic highs lows prices 14 3 = none) ∧
      (prices.length < 20 → calculateBBands sqrtFn prices 20 2 = none) ∧
      (prices.length = 20 → calculateBBands sqrtFn prices 20 2 ≠ none) := by
  intro prices sqrtFn highs lows
  refine ⟨?_, ?_, ?_, ?_, ?_⟩
  · intro h
    rw [calculateRSI, if_pos h]
  · intro h
    rw [calculateMACD, if_pos (by omega)]
  · intro h
    exact (calculateStochastic_eq_none_iff highs lows prices).mpr (by omega)
  · intro h
    rw [calculateBBands, if_pos h]
  · intro h
    exact calculateBBands_ne_none sqrtFn prices 20 2 (by omega)

/-- Witness for C6's amended theorem: the 14-sample prefix 1..14 makes all
four indicators return null. -/
theorem indicators_insufficient_null_witness :
    calculateRSI (exPrices20.take 14) 14 = none ∧
    calculateMACD (exPrices20.take 14) 12 26 9 = none ∧
    calculateStochastic (exPrices20.take 14) (exPrices20.take 14)
      (exPrices20.take 14) 14 3 = none ∧
    calculateBBands (fun x => x) (exPrices20.take 14) 20 2 = none := by
  obtain ⟨h1, h2, h3, h4, -⟩ :=
    indicators_insufficient_null (exPrices20.take 14) (fun x => x)
      (exPrices20.take 14) (exPrices20.take 14)
  have hlen : (exPrices20.take 14).length = 14 := by
    rw [List.length_take, exPrices20_length]
    omega
  exact ⟨h1 (by omega), h2 (by omega), h3 (by omega), h4 (by omega)⟩

lemma priceChanges_length (l : List ℚ) : (priceChanges l).length = l.length - 1 := by
  simp [priceChanges]

lemma priceChanges_cons (a b : ℚ) (u : List ℚ) :
    priceChanges (a :: b :: u) = (b - a) :: priceChanges (b :: u) := by
  simp [priceChanges]

lemma chain_lt_changes_pos (prices : List ℚ) (h : List.Chain' (· < ·) prices) :
    ∀ c ∈ priceChanges prices, 0 < c := by
  induction prices with
  | nil => simp [priceChanges]
  | cons a t ih =>
    cases t with
    | nil => simp [priceChanges]
    | cons b u =>
      intro c hc
      rw [priceChanges_cons] at hc
      rcases List.mem_cons.mp hc with rfl | hc2
      · have hab : a < b := (List.chain'_cons.mp h).1
        linarith
      · exact ih (List.chain'_cons.mp h).2 c hc2

lemma chain_gt_changes_neg (prices : List ℚ) (h : List.Chain' (· > ·) prices) :
    ∀ c ∈ priceChanges prices, c < 0 := by
  induction prices with
  | nil => simp [priceChanges]
  | cons a t ih =>
    cases t with
    | nil => simp [priceChanges]
    | cons b u =>
      intro c hc
      rw [priceChanges_cons] at hc
      rcases List.mem_cons.mp hc with rfl | hc2
      · have hab : a > b := (List.chain'_cons.mp h).1
        linarith
      · exact ih (List.chain'_cons.mp h).2 c hc2

lemma lossOf_of_pos (c : ℚ) (h : 0 < c) : lossOf c = 0 := by
  rw [lossOf, if_neg (not_lt.mpr (le_of_lt h))]

lemma gainOf_of_neg (c : ℚ) (h : c < 0) : gainOf c = 0 := by
  rw [gainOf, if_neg (not_lt.mpr (le_of_lt h))]

lemma lossOf_nonneg (c : ℚ) : 0 ≤ lossOf c := by
  rw [lossOf]
  split <;> linarith

lemma wilderSmooth_zero (period : ℕ) (f : ℚ → ℚ) (changes : List ℚ)
    (h : ∀ c ∈ changes, f c = 0) :
    wilderSmooth period f 0 changes = 0 := by
  induction changes with
  | nil => rfl
  | cons c cs ih =>
    show wilderSmooth period f ((0 * ((period : ℚ) - 1) + f c) / period) cs = 0
    rw [h c (by simp), zero_mul, zero_add, zero_div]
    exact ih (fun x hx => h x (by simp [hx]))

lemma wilderSmooth_pos (period : ℕ) (hp : 2 ≤ period) (f : ℚ → ℚ)
    (hf : ∀ c, 0 ≤ f c) (changes : List ℚ) :
    ∀ avg0 : ℚ, 0 < avg0 → 0 < wilderSmooth period f avg0 changes := by
  induction changes with
  | nil => exact fun avg0 h0 => h0
  | cons c cs ih =>
    intro avg0 h0
    show 0 < wilderSmooth period f ((avg0 * ((period : ℚ) - 1) + f c) / period) cs
    apply ih
    apply div_pos
    · have h2 : (2 : ℚ) ≤ (period : ℚ) := by exact_mod_cast hp
      have hm : 0 < avg0 * ((period : ℚ) - 1) := mul_pos h0 (by linarith)
      linarith [hf c]
    · have : 0 < period := by omega
      exact_mod_cast this

lemma calculateRSI_eq (prices : List ℚ) (period : ℕ) (h : period < prices.length) :
    calculateRSI prices period =
      (if wilderSmooth period lossOf
            ((((priceChanges prices).take period).map lossOf).sum / period)
            ((priceChanges prices).drop period) = 0 then some 100
       else some (100 - 100 / (1 + wilderSmooth period gainOf
            ((((priceChanges prices).take period).map gainOf).sum / period)
            ((priceChanges prices).drop period) /
            wilderSmooth period lossOf
            ((((priceChanges prices).take period).map lossOf).sum / period)
            ((priceChanges prices).drop period)))) := by
  rw [calculateRSI, if_neg (not_le.mpr h)]

/-- Claim C7: RSI (period 14) is exactly 100 on every strictly increasing
series with more than 14 samples (the avgLoss = 0 branch) and exactly 0 on
every strictly decreasing one; and in general it equals 100 when the
Wilder-smoothed average loss is 0 and 100 − 100/(1 + avgGain/avgLoss)
otherwise, with the averages seeded over the first period changes and
smoothed by avg = (avg·(period−1) + delta)/period over the rest. -/
theorem rsi_monotone_extremes :
    (∀ prices : List ℚ, 14 < prices.length → List.Chain' (· < ·) prices →
      calculateRSI prices 14 = some 100) ∧
    (∀ prices : List ℚ, 14 < prices.length → List.Chain' (· > ·) prices →
      calculateRSI prices 14 = some 0) ∧
    (∀ (prices : List ℚ) (period : ℕ), period < prices.length →
      calculateRSI prices period =
        (if wilderSmooth period lossOf
              ((((priceChanges prices).take period).map lossOf).sum / period)
              ((priceChanges prices).drop period) = 0 then some 100
         else some (100 - 100 / (1 + wilderSmooth period gainOf
              ((((priceChanges prices).take period).map gainOf).sum / period)
              ((priceChanges prices).drop period) /
              wilderSmooth period lossOf
              ((((priceChanges prices).take period).map lossOf).sum / period)
              ((priceChanges prices).drop period))))) := by
  refine ⟨?_, ?_, fun prices period h => calculateRSI_eq prices period h⟩
  · intro prices hlen hchain
    have hpos := chain_lt_changes_pos prices hchain
    have hzero : ∀ c ∈ priceChanges prices, lossOf c = 0 :=
      fun c hc => lossOf_of_pos c (hpos c hc)
    have hsum : (((priceChanges prices).take 14).map lossOf).sum = 0 :=
      List.sum_eq_zero (by
        intro x hx
        obtain ⟨c, hc, rfl⟩ := List.mem_map.mp hx
        exact hzero c (List.take_subset _ _ hc))
    rw [calculateRSI_eq prices 14 hlen, hsum, zero_div,
      wilderSmooth_zero 14 lossOf _ (fun c hc => hzero c (List.drop_subset _ _ hc)),
      if_pos rfl]
  · intro prices hlen hchain
    have hneg := chain_gt_changes_neg prices hchain
    have hgz : ∀ c ∈ priceChanges prices, gainOf c = 0 :=
      fun c hc => gainOf_of_neg c (hneg c hc)
    have hgsum : (((priceChanges prices).take 14).map gainOf).sum = 0 :=
      List.sum_eq_zero (by
        intro x hx
        obtain ⟨c, hc, rfl⟩ := List.mem_map.mp hx
        exact hgz c (List.take_subset _ _ hc))
    have hlpos : 0 < (((priceChanges prices).take 14).map lossOf).sum := by
      apply List.sum_pos
      · intro x hx
        obtain ⟨c, hc, rfl⟩ := List.mem_map.mp hx
        have hc0 : c < 0 := hneg c (List.take_subset _ _ hc)
        rw [lossOf, if_pos hc0]
        linarith
      · have hch : (priceChanges prices).length = prices.length - 1 :=
          priceChanges_length prices
        intro hemp
        have hl : (((priceChanges prices).take 14).map lossOf).length = 14 := by
          rw [List.length_map, List.length_take, hch]
          omega
        rw [hemp] at hl
        simp at hl
    have hwl : 0 < wilderSmooth 14 lossOf
        ((((priceChanges prices).take 14).map lossOf).sum / (14 : ℕ))
        ((priceChanges prices).drop 14) :=
      wilderSmooth_pos 14 (by norm_num) lossOf lossOf_nonneg
        ((priceChanges prices).drop 14) _
        (div_pos hlpos (by norm_num))
    rw [calculateRSI_eq prices 14 hlen, if_neg (ne_of_gt hwl), hgsum, zero_div,
      wilderSmooth_zero 14 gainOf _ (fun c hc => hgz c (List.drop_subset _ _ hc)),
      zero_div, add_zero]
    norm_num

/-- Witness for C7: on the concrete strictly increasing series 0,1,…,15
(16 samples) RSI is exactly 100, and on its strictly decreasing reverse it
is exactly 0. -/
theorem rsi_monotone_extremes_witness :
    calculateRSI [0, 1, 2, 3, 4, 5, 6, 7, 8, 9, 10, 11, 12, 13, 14, 15] 14
        = some 100 ∧
    calculateRSI [15, 14, 13, 12, 11, 10, 9, 8, 7, 6, 5, 4, 3, 2, 1, 0] 14
        = some 0 :=
  ⟨rsi_monotone_extremes.1 _ (by norm_num) (by
      norm_num [List.chain'_cons, List.chain'_singleton]),
   rsi_monotone_extremes.2.1 _ (by norm_num) (by
      norm_num [List.chain'_cons, List.chain'_singleton])⟩

/-- The feature computation of getOrderBookFeatures in orderbookService.ts,
on the already-parsed (price, quantity) levels: fails soft (none) when
either side is empty, and otherwise computes mid price, spread, top-10
volumes, the ε-guarded imbalance and the weighted mid. -/
def getOrderBookFeatures (bids asks : List (ℚ × ℚ)) : Option OrderBookFeatureData :=
  match bids, asks with
  | b0 :: _, a0 :: _ =>
    let best_bid := b0.1
    let best_ask := a0.1
    let mid_price := (best_bid + best_ask) / 2
    let spread := best_ask - best_bid
    let bid_vol := ((bids.take 10).map Prod.snd).sum
    let ask_vol := ((asks.take 10).map Prod.snd).sum
    let total_vol := bid_vol + ask_vol + 1/1000000000
    let imbalance := (bid_vol - ask_vol) / total_vol
    let weighted_mid := (best_ask * bid_vol + best_bid * ask_vol) / total_vol
    some ⟨mid_price, spread, bid_vol, ask_vol, imbalance, weighted_mid⟩
  | _, _ => none

/-- Claim C8: for non-empty bid and ask level lists with non-negative
quantities, the extracted imbalance equals
(bid_vol − ask_vol)/(bid_vol + ask_vol + 1e-9) over the top-10-level
volumes and lies in [−1, 1]; when both volumes are 0 no division error
occurs and the imbalance is exactly 0. -/
theorem imbalance_formula_bounds :
    ∀ (bids asks : List (ℚ × ℚ)),
      bids ≠ [] → asks ≠ [] →
      (∀ l ∈ bids, 0 ≤ l.2) → (∀ l ∈ asks, 0 ≤ l.2) →
      ∃ f, getOrderBookFeatures bids asks = some f ∧
        f.bid_vol = ((bids.take 10).map Prod.snd).sum ∧
        f.ask_vol = ((asks.take 10).map Prod.snd).sum ∧
        f.imbalance = (f.bid_vol - f.ask_vol) / (f.bid_vol + f.ask_vol + 1/1000000000) ∧
        (-1 : ℚ) ≤ f.imbalance ∧ f.imbalance ≤ 1 ∧
        (f.bid_vol = 0 → f.ask_vol = 0 → f.imbalance = 0) := by
  intro bids asks hb ha hbq haq
  match bids, asks with
  | [], _ => exact absurd rfl hb
  | _ :: _, [] => exact absurd rfl ha
  | b0 :: bt, a0 :: at' =>
    set bv := (((b0 :: bt).take 10).map Prod.snd).sum with hbv
    set av := (((a0 :: at').take 10).map Prod.snd).sum with hav
    have hbv0 : 0 ≤ bv := by
      rw [hbv]
      apply List.sum_nonneg
      intro x hx
      obtain ⟨l, hl, rfl⟩ := List.mem_map.mp hx
      exact hbq l (List.take_subset _ _ hl)
    have hav0 : 0 ≤ av := by
      rw [hav]
      apply List.sum_nonneg
      intro x hx
      obtain ⟨l, hl, rfl⟩ := List.mem_map.mp hx
      exact haq l (List.take_subset _ _ hl)
    have hden : (0 : ℚ) < bv + av + 1/1000000000 := by positivity
    refine ⟨_, rfl, rfl, rfl, rfl, ?_, ?_, ?_⟩
    · rw [le_div_iff₀ hden]
      linarith
    · rw [div_le_one hden]
      linarith
    · intro h0b h0a
      dsimp only at h0b h0a
      show (bv - av) / (bv + av + 1/1000000000) = 0
      rw [hbv, hav, h0b, h0a]
      norm_num

/-- Witness for C8: a one-level book on each side with zero quantities —
the ε-guard makes the imbalance 0 rather than a division error. -/
theorem imbalance_formula_bounds_witness :
    ∃ f, getOrderBookFeatures [((100 : ℚ), (0 : ℚ))] [((101 : ℚ), (0 : ℚ))] = some f ∧
      f.imbalance = 0 := by
  obtain ⟨f, hf, hbv, hav, -, -, -, hzero⟩ :=
    imbalance_formula_bounds [((100 : ℚ), (0 : ℚ))] [((101 : ℚ), (0 : ℚ))]
      (by simp) (by simp) (by simp) (by simp)
  exact ⟨f, hf, hzero (by rw [hbv]; simp) (by rw [hav]; simp)⟩

/-- The price-history update in fetchMarketData (App.tsx):
setPriceHistory(prev => [...prev, newPriceData].slice(-MAX_HISTORY_LENGTH)). -/
def pushTick (prev : List PriceData) (x : PriceData) : List PriceData :=
  takeLast (prev ++ [x]) MAX_HISTORY_LENGTH

lemma takeLast_eq_rtake {α : Type} (l : List α) (n : ℕ) : takeLast l n = l.rtake n := rfl

lemma takeLast_append_takeLast {α : Type} (n : ℕ) (l l2 : List α) :
    takeLast (takeLast l n ++ l2) n = takeLast (l ++ l2) n := by
  simp only [takeLast_eq_rtake, List.rtake_eq_reverse_take_reverse]
  rw [List.reverse_append, List.reverse_reverse, List.reverse_append]
  congr 1
  rw [List.take_append_eq_append_take, List.take_append_eq_append_take]
  congr 1
  rw [List.take_take, Nat.min_eq_left (Nat.sub_le n _)]

lemma pushTick_length_le (l : List PriceData) (x : PriceData) :
    (pushTick l x).length ≤ MAX_HISTORY_LENGTH := by
  simp [pushTick, takeLast, MAX_HISTORY_LENGTH]
  omega

lemma foldl_pushTick (ticks : List PriceData) (start : List PriceData)
    (h : start.length ≤ MAX_HISTORY_LENGTH) :
    ticks.foldl pushTick start = takeLast (start ++ ticks) MAX_HISTORY_LENGTH := by
  induction ticks generalizing start with
  | nil =>
    show start = takeLast (start ++ []) MAX_HISTORY_LENGTH
    rw [List.append_nil, takeLast, Nat.sub_eq_zero_of_le h, List.drop_zero]
  | cons t ts ih =>
    rw [List.foldl_cons, ih _ (pushTick_length_le start t)]
    show takeLast (takeLast (start ++ [t]) MAX_HISTORY_LENGTH ++ ts) MAX_HISTORY_LENGTH =
      takeLast (start ++ t :: ts) MAX_HISTORY_LENGTH
    rw [takeLast_append_takeLast, List.append_assoc, List.singleton_append]

/-- Claim C9: for every starting history of at most 120 entries and every
sequence of appended price ticks, the resulting buffer is exactly the most
recent min(total, 120) entries of the full stream in oldest-first order —
the buffer is the slice(-120) suffix of start ++ ticks, its length is
min(total, 120), and it is a contiguous suffix of the stream (order
preserved, only oldest entries evicted). -/
theorem price_history_bounded :
    ∀ (start ticks : List PriceData), start.length ≤ MAX_HISTORY_LENGTH →
      ticks.foldl pushTick start = takeLast (start ++ ticks) MAX_HISTORY_LENGTH ∧
      (ticks.foldl pushTick start).length =
        min (start.length + ticks.length) MAX_HISTORY_LENGTH ∧
      ∃ dropped, dropped ++ ticks.foldl pushTick start = start ++ ticks := by
  intro start ticks h
  have h1 := foldl_pushTick ticks start h
  refine ⟨h1, ?_, ?_⟩
  · rw [h1, takeLast_length, List.length_append]
    simp [MAX_HISTORY_LENGTH]
    omega
  · refine ⟨(start ++ ticks).take ((start ++ ticks).length - MAX_HISTORY_LENGTH), ?_⟩
    rw [h1, takeLast]
    exact List.take_append_drop _ _

/-- A synthetic tick with all fields derived from its index. -/
def exTick (i : ℕ) : PriceData := ⟨(i : ℤ), (i : ℚ), (i : ℚ), (i : ℚ)⟩

/-- 200 synthetic ticks, as in the spec's buffer-bound test. -/
def exTicks200 : List PriceData := (List.range 200).map exTick

/-- Witness for C9: appending 200 ticks to the empty buffer leaves exactly
the most recent 120 in order (the slice(-120) suffix), of length 120. -/
theorem price_history_bounded_witness :
    (exTicks200.foldl pushTick []).length = 120 ∧
    exTicks200.foldl pushTick [] = takeLast exTicks200 MAX_HISTORY_LENGTH := by
  obtain ⟨h1, h2, -⟩ := price_history_bounded [] exTicks200 (by simp)
  have hlen : exTicks200.length = 200 := by
    rw [exTicks200, List.length_map, List.length_range]
  constructor
  · rw [h2, hlen]
    simp [MAX_HISTORY_LENGTH]
  · simpa using h1
